import Mathlib

/-!
Verification of the alert rule engine, notification dispatcher and weighted
health scorer of the NiroAgent dashboard monitoring utilities
(`scripts/alert-manager.py` and `scripts/production-monitor.py`).

The Python code is embedded shallowly:

* Python dicts keyed by strings become association lists (`List (String × _)`)
  with Python's assignment semantics (update in place when the key exists,
  append otherwise).
* `datetime.now()` / `int(time.time())` become a `Nat` number of seconds
  passed into each evaluation cycle.  Python compares
  `datetime.now() - last < timedelta(seconds=cooldown)`; a negative
  difference (clock moved backwards) is below any nonnegative cooldown and
  thus skips, which truncated `Nat` subtraction (`now - last = 0`) models
  exactly.
* Numeric metric values and thresholds are modelled as `Int`; the claims
  under study only compare them with `<` and `>`.
* Exceptions raised while evaluating a rule condition, and failures of a
  channel delivery, are modelled by oracle functions returning `Except`;
  the `try/except` blocks in the source catch them and continue.
-/

/-- `str(n)` for a natural number, structurally recursive so the kernel can
evaluate it (`natReprCore fuel n` is the little-endian digit list of `n`,
correct whenever `n ≤ fuel`). -/
def natReprCore : Nat → Nat → List Char
  | _, 0 => []
  | 0, _ + 1 => []
  | fuel + 1, n + 1 => Nat.digitChar ((n + 1) % 10) :: natReprCore fuel ((n + 1) / 10)

/-- Decimal representation of a natural number, as Python's `str(int)`. -/
def natRepr (n : Nat) : String := if n = 0 then "0" else ⟨(natReprCore n n).reverse⟩

/-- `chListStartsWith n h` : the char list `n` is a leading segment of `h`. -/
def chListStartsWith : List Char → List Char → Bool
  | [], _ => true
  | _ :: _, [] => false
  | a :: as, b :: bs => a == b && chListStartsWith as bs

/-- `chListHasSub n h` : the char list `n` occurs contiguously inside `h`. -/
def chListHasSub (needle : List Char) : List Char → Bool
  | [] => chListStartsWith needle []
  | b :: bs => chListStartsWith needle (b :: bs) || chListHasSub needle bs

/-- Python's `needle in hay` on strings. -/
def strContains (hay needle : String) : Bool := chListHasSub needle.data hay.data

/-- `class AlertLevel(Enum)` of alert-manager.py. -/
inductive AlertLevel where
  | info
  | warning
  | critical
  | emergency
deriving DecidableEq

/-- The `.value` string of each `AlertLevel` member. -/
def AlertLevel.value : AlertLevel → String
  | .info => "info"
  | .warning => "warning"
  | .critical => "critical"
  | .emergency => "emergency"

/-- The fixed iteration order `for level in AlertLevel`. -/
def AlertLevel.all : List AlertLevel := [.info, .warning, .critical, .emergency]

/-- `class AlertChannel(Enum)` of alert-manager.py. -/
inductive AlertChannel where
  | email
  | slack
  | sns
  | webhook
  | pagerduty
deriving DecidableEq

/-- The metric paths read by `_evaluate_condition` / `_generate_alert_message`.
Each Python access is `metrics.get(outer, {}).get(inner, default)`; a missing
outer dict and a missing inner key produce the same default, so each path is
one `Option` leaf. -/
structure Metrics where
  response_time_ms : Option Int := none
  active_daemon_agents : Option Int := none
  cpu_percent : Option Int := none
  memory_percent : Option Int := none
  overall_health_status : Option String := none
  running_deprecated_services : Option (List String) := none
deriving DecidableEq

/-- `@dataclass class Alert` (timestamp kept as the `Nat` second count;
`metadata` is the metrics snapshot that triggered the alert). -/
structure Alert where
  level : AlertLevel
  title : String
  message : String
  component : String
  timestamp : Nat
  metadata : Metrics
  alert_id : String
  resolved : Bool := false
  acknowledged : Bool := false
  escalated : Bool := false
deriving DecidableEq

/-- `@dataclass class AlertRule`. -/
structure AlertRule where
  name : String
  condition : String
  threshold : Int
  duration : Nat
  level : AlertLevel
  channels : List AlertChannel
  cooldown : Nat := 300
  enabled : Bool := true
deriving DecidableEq

/-- `@dataclass class NotificationChannel`.  The per-channel `config` dicts
are heterogeneous; the claims only read the pagerduty one, modelled
separately as `PagerdutyConfig`. -/
structure NotificationChannel where
  channel_type : AlertChannel
  enabled : Bool := true
deriving DecidableEq

/-- Python dict lookup `l[k]` / `k in l` on an association list. -/
def lookupA {β : Type} (k : String) : List (String × β) → Option β
  | [] => none
  | (k2, v) :: rest => if k2 = k then some v else lookupA k rest

/-- Python dict assignment `l[k] = v`: update in place if `k` is present
(keys are unique in every dict-reachable list, so replacing the first
occurrence is the same), append otherwise. -/
def insertA {β : Type} (k : String) (v : β) : List (String × β) → List (String × β)
  | [] => [(k, v)]
  | p :: rest => if p.1 = k then (k, v) :: rest else p :: insertA k v rest

/-- Python `del l[k]`. -/
def eraseA {β : Type} (k : String) (l : List (String × β)) : List (String × β) :=
  l.filter (fun p => p.1 ≠ k)

/-- The mutable state of an `AlertManager` instance. -/
structure AMState where
  active_alerts : List (String × Alert) := []
  alert_history : List Alert := []
  rules : List AlertRule := []
  channels : List (AlertChannel × NotificationChannel) := []
  last_notification : List (String × Nat) := []
deriving DecidableEq

/-- `_evaluate_condition`: dispatch on substrings of the condition string;
every referenced metric path defaults to `0` (`'unknown'` for the health
status) when missing; an unmatched condition returns `False`. -/
def evalCondition (rule : AlertRule) (m : Metrics) : Bool :=
  if strContains rule.condition "response_time_ms" then
    decide (m.response_time_ms.getD 0 > rule.threshold)
  else if strContains rule.condition "active_agents" then
    decide (m.active_daemon_agents.getD 0 < rule.threshold)
  else if strContains rule.condition "cpu_percent" then
    decide (m.cpu_percent.getD 0 > rule.threshold)
  else if strContains rule.condition "memory_percent" then
    decide (m.memory_percent.getD 0 > rule.threshold)
  else if strContains rule.condition "overall_health == \x27critical\x27" then
    decide (m.overall_health_status.getD "unknown" = "critical")
  else if strContains rule.condition "deprecated_services_detected" then
    decide (((m.running_deprecated_services.getD []).length : Int) > rule.threshold)
  else
    false

/-- Python `str.replace('_', ' ')` for single characters. -/
def replaceUnderscores (s : String) : String :=
  ⟨s.data.map (fun c => if c = '_' then ' ' else c)⟩

/-- Helper for Python `str.title()`: the Bool records whether the previous
character was alphabetic. -/
def pyTitleAux : Bool → List Char → List Char
  | _, [] => []
  | prevAlpha, c :: cs =>
    (if c.isAlpha then (if prevAlpha then c.toLower else c.toUpper) else c) ::
      pyTitleAux c.isAlpha cs

/-- Python `str.title()`. -/
def pyTitle (s : String) : String := ⟨pyTitleAux false s.data⟩

/-- `f"Alert: {rule.name.replace('_', ' ').title()}"`. -/
def alertTitle (rule : AlertRule) : String := "Alert: " ++ pyTitle (replaceUnderscores rule.name)

/-- Python `f"{x:.1f}"` on the integer-valued metrics of this model. -/
def fmtF1 (x : Int) : String := toString x ++ ".0"

/-- Python `str` of a list of strings, e.g. `['a', 'b']`. -/
def pyStrList (l : List String) : String :=
  "[" ++ String.intercalate ", " (l.map (fun s => "\x27" ++ s ++ "\x27")) ++ "]"

/-- `_generate_alert_message`: per-rule-name human readable message with a
default for unknown names. -/
def generateAlertMessage (rule : AlertRule) (m : Metrics) : String :=
  if rule.name = "high_response_time" then
    "API response time is " ++ fmtF1 (m.response_time_ms.getD 0) ++ "ms (threshold: " ++
      toString rule.threshold ++ "ms)"
  else if rule.name = "agent_down" then
    "Only " ++ toString (m.active_daemon_agents.getD 0) ++ " agents active (minimum: " ++
      toString rule.threshold ++ ")"
  else if rule.name = "high_cpu" then
    "CPU usage is " ++ fmtF1 (m.cpu_percent.getD 0) ++ "% (threshold: " ++
      toString rule.threshold ++ "%)"
  else if rule.name = "high_memory" then
    "Memory usage is " ++ fmtF1 (m.memory_percent.getD 0) ++ "% (threshold: " ++
      toString rule.threshold ++ "%)"
  else if rule.name = "system_critical" then
    "System health is critical - immediate attention required"
  else if rule.name = "deprecated_service_running" then
    "Deprecated services detected: " ++ pyStrList (m.running_deprecated_services.getD [])
  else
    "Alert condition met for " ++ rule.name

/-- `alert_id = f"{rule.name}_{int(time.time())}"`. -/
def idOf (name : String) (t : Nat) : String := name ++ "_" ++ natRepr t

/-- The `Alert(...)` record built by `evaluate_rules` when a rule fires. -/
def mkAlert (now : Nat) (m : Metrics) (rule : AlertRule) : Alert :=
  { level := rule.level
    title := alertTitle rule
    message := generateAlertMessage rule m
    component := rule.name
    timestamp := now
    metadata := m
    alert_id := idOf rule.name now }

/-- The body of `evaluate_rules` once a rule's condition is met and the
cooldown has passed: build the `Alert`, append it to the triggered list,
store it in `active_alerts` and stamp `last_notification`. -/
def fireAlert (now : Nat) (m : Metrics) (rule : AlertRule) (st : AMState) (trig : List Alert) :
    AMState × List Alert :=
  ({ st with
      active_alerts := insertA (idOf rule.name now) (mkAlert now m rule) st.active_alerts
      last_notification := insertA rule.name now st.last_notification },
   trig ++ [mkAlert now m rule])

/-- A condition evaluator that may raise (`.error`), as
`self._evaluate_condition(rule, metrics)` can on ill-typed metric values. -/
def CondEval : Type := AlertRule → Metrics → Except Unit Bool

/-- One iteration of the `for rule in self.rules` loop of `evaluate_rules`:
skip disabled rules, catch a raising condition (`except ... continue`),
skip an unmet condition, apply the cooldown gate, otherwise fire. -/
def evalRuleStep (ce : CondEval) (now : Nat) (m : Metrics) (acc : AMState × List Alert)
    (rule : AlertRule) : AMState × List Alert :=
  if rule.enabled = false then acc
  else
    match ce rule m with
    | .error _ => acc
    | .ok false => acc
    | .ok true =>
      match lookupA rule.name acc.1.last_notification with
      | some last =>
        if now - last < rule.cooldown then acc else fireAlert now m rule acc.1 acc.2
      | none => fireAlert now m rule acc.1 acc.2

/-- The `evaluate_rules` loop over an explicit rule list. -/
def evalRulesOn (ce : CondEval) (now : Nat) (m : Metrics) (st : AMState)
    (rs : List AlertRule) : AMState × List Alert :=
  rs.foldl (evalRuleStep ce now m) (st, [])

/-- The total condition evaluator of the source (no exception raised). -/
def okEval : CondEval := fun r m => Except.ok (evalCondition r m)

/-- `evaluate_rules(self, metrics)`: returns the updated manager state and
the list of newly triggered alerts. -/
def evaluate_rules (now : Nat) (m : Metrics) (st : AMState) : AMState × List Alert :=
  evalRulesOn okEval now m st st.rules

/-- The history cap of `process_alerts`: `if len(h) > 100: h = h[-100:]`. -/
def capHistory (h : List Alert) : List Alert :=
  if h.length > 100 then h.drop (h.length - 100) else h

/-- `process_alerts(self, metrics)`: evaluate rules, dispatch the new alerts
(dispatch does not change the manager state), extend the history and cap it
at 100 entries. -/
def process_alerts (now : Nat) (m : Metrics) (st : AMState) : AMState × List Alert :=
  let r := evaluate_rules now m st
  ({ r.1 with alert_history := capHistory (r.1.alert_history ++ r.2) }, r.2)

/-- A sequence of `process_alerts` calls, collecting every alert generated
during the run. -/
def runCycles (st : AMState) : List (Nat × Metrics) → AMState × List Alert
  | [] => (st, [])
  | (t, m) :: rest =>
    let r := process_alerts t m st
    let r2 := runCycles r.1 rest
    (r2.1, r.2 ++ r2.2)

/-- `get_active_alerts`: `list(self.active_alerts.values())`. -/
def getActiveAlerts (st : AMState) : List Alert := st.active_alerts.map (·.2)

/-- Set a flag on the `Alert` object stored under key `aid`.  In Python the
history holds the very same object as the active map, so mutating it is
visible in both; with immutable records this aliasing is modelled by
updating the active entry at key `aid` and every history entry whose
`alert_id` is `aid`. -/
def updateAlertObj (f : Alert → Alert) (aid : String) (st : AMState) : AMState :=
  { st with
      active_alerts := st.active_alerts.map (fun p => if p.1 = aid then (p.1, f p.2) else p)
      alert_history := st.alert_history.map (fun a => if a.alert_id = aid then f a else a) }

/-- `acknowledge_alert(alert_id, ...)`: set `acknowledged = True` if the id
is an active key, otherwise do nothing. -/
def acknowledge_alert (aid : String) (st : AMState) : AMState :=
  if (lookupA aid st.active_alerts).isSome then
    updateAlertObj (fun a => { a with acknowledged := true }) aid st
  else st

/-- `resolve_alert(alert_id, ...)`: set `resolved = True` and delete the id
from the active map if present, otherwise do nothing. -/
def resolve_alert (aid : String) (st : AMState) : AMState :=
  if (lookupA aid st.active_alerts).isSome then
    let st1 := updateAlertObj (fun a => { a with resolved := true }) aid st
    { st1 with active_alerts := eraseA aid st1.active_alerts }
  else st

/-- One entry of the `recent_alerts` list built by `get_alert_summary`
(the timestamp is kept numeric where the source renders `isoformat()`). -/
structure RecentAlert where
  id : String
  level : String
  title : String
  component : String
  timestamp : Nat
  acknowledged : Bool
  resolved : Bool
deriving DecidableEq

/-- The dictionary view of an alert used in `recent_alerts`. -/
def toRecent (a : Alert) : RecentAlert :=
  { id := a.alert_id
    level := a.level.value
    title := a.title
    component := a.component
    timestamp := a.timestamp
    acknowledged := a.acknowledged
    resolved := a.resolved }

/-- The result of `get_alert_summary`. -/
structure AlertSummary where
  active_alerts_count : Nat
  alerts_by_level : List (String × Nat)
  recent_alerts : List RecentAlert
deriving DecidableEq

/-- `get_alert_summary`: active count, per-level counts over the active
alerts, and the last 10 history entries (`self.alert_history[-10:]`). -/
def get_alert_summary (st : AMState) : AlertSummary :=
  let active := getActiveAlerts st
  { active_alerts_count := active.length
    alerts_by_level :=
      AlertLevel.all.map (fun lv => (lv.value, (active.filter (fun a => a.level = lv)).length))
    recent_alerts :=
      ((st.alert_history.drop (st.alert_history.length - 10)).map toRecent) }

/-- `channel_type in self.channels` / `self.channels[channel_type]`. -/
def lookupC (k : AlertChannel) : List (AlertChannel × NotificationChannel) →
    Option NotificationChannel
  | [] => none
  | (k2, v) :: rest => if k2 = k then some v else lookupC k rest

/-- A channel delivery oracle: the effect of `_send_<channel>_alert`, which
may raise (network error, bad config value). -/
def Deliver : Type := Alert → AlertChannel → Except Unit Unit

/-- One iteration of the `for channel_type in channels` loop of
`send_alert`: skip a channel missing from `self.channels`, skip a disabled
channel, otherwise attempt delivery and record the outcome; the
`try/except` catches a failure so the loop always continues. -/
def sendChannelStep (dl : Deliver) (channels : List (AlertChannel × NotificationChannel))
    (a : Alert) (acc : List (AlertChannel × Except Unit Unit)) (ct : AlertChannel) :
    List (AlertChannel × Except Unit Unit) :=
  match lookupC ct channels with
  | none => acc
  | some ch => if ch.enabled = false then acc else acc ++ [(ct, dl a ct)]

/-- `send_alert(alert, channels)`: the sequence of delivery attempts made
(channel, outcome), in loop order. -/
def send_alert (dl : Deliver) (channels : List (AlertChannel × NotificationChannel))
    (a : Alert) (cts : List AlertChannel) : List (AlertChannel × Except Unit Unit) :=
  cts.foldl (sendChannelStep dl channels a) []

/-- The pagerduty channel `config` dict. -/
structure PagerdutyConfig where
  integration_key : String := ""
  service_url : String := "https://events.pagerduty.com/v2/enqueue"
deriving DecidableEq

/-- `custom_details` of the pagerduty payload. -/
structure PagerCustomDetails where
  message : String
  metadata : Metrics
deriving DecidableEq

/-- Inner `payload` of the pagerduty event. -/
structure PagerPayloadInner where
  summary : String
  source : String
  severity : String
  component : String
  custom_details : PagerCustomDetails
deriving DecidableEq

/-- The full pagerduty event dict. -/
structure PagerEvent where
  routing_key : String
  event_action : String
  dedup_key : String
  payload : PagerPayloadInner
deriving DecidableEq

/-- `_send_pagerduty_alert`: `none` when the integration key is unset
(falsy), otherwise the payload posted to the events endpoint. -/
def buildPagerdutyEvent (a : Alert) (cfg : PagerdutyConfig) : Option PagerEvent :=
  if cfg.integration_key = "" then none
  else
    some
      { routing_key := cfg.integration_key
        event_action := "trigger"
        dedup_key := a.component ++ "_" ++ a.level.value
        payload :=
          { summary := a.title
            source := "agent-monitoring"
            severity :=
              if a.level ∈ [AlertLevel.critical, AlertLevel.emergency] then "critical"
              else "warning"
            component := a.component
            custom_details := { message := a.message, metadata := a.metadata } } }

/-- The fixed `critical_checks` list of `check_system_health`. -/
def criticalChecks : List String := ["discovery_server", "daemon_agents"]

/-- Per-status numeric score with default 50 for anything unrecognized. -/
def statusScore (s : String) : Nat :=
  if s = "healthy" then 100
  else if s = "warning" then 70
  else if s = "failed" then 0
  else if s = "unknown" then 50
  else 50

/-- The `health_scores` list of `check_system_health`: each check (name,
optional status string, default `"unknown"`) contributes its score once,
twice for critical checks (`health_scores.extend([score] * weight)`). -/
def healthScores (checks : List (String × Option String)) : List Nat :=
  checks.foldl
    (fun acc p =>
      acc ++ List.replicate (if p.1 ∈ criticalChecks then 2 else 1) (statusScore (p.2.getD "unknown")))
    []

/-- `overall_score = sum(health_scores) / len(health_scores) if health_scores else 0`.
The source additionally rounds the *reported* score to one decimal for
display; the overall status is computed from this unrounded value. -/
def overallScore (checks : List (String × Option String)) : ℚ :=
  let hs := healthScores checks
  if hs.length = 0 then 0 else ((hs.foldl (· + ·) 0 : ℕ) : ℚ) / (hs.length : ℚ)

/-- The `status` field of `overall_health`. -/
def overallStatus (checks : List (String × Option String)) : String :=
  if overallScore checks ≥ 90 then "healthy"
  else if overallScore checks ≥ 70 then "warning"
  else "critical"

/-- `setup_default_config`: the six default alert rules, in source order. -/
def defaultRules : List AlertRule :=
  [ { name := "high_response_time"
      condition := "response_time_ms > threshold"
      threshold := 5000
      duration := 60
      level := .warning
      channels := [.email, .slack] },
    { name := "agent_down"
      condition := "active_agents < threshold"
      threshold := 3
      duration := 30
      level := .critical
      channels := [.email, .slack, .sns] },
    { name := "high_cpu"
      condition := "cpu_percent > threshold"
      threshold := 80
      duration := 300
      level := .warning
      channels := [.email] },
    { name := "high_memory"
      condition := "memory_percent > threshold"
      threshold := 85
      duration := 300
      level := .warning
      channels := [.email] },
    { name := "system_critical"
      condition := "overall_health == \x27critical\x27"
      threshold := 1
      duration := 0
      level := .emergency
      channels := [.email, .slack, .sns, .pagerduty] },
    { name := "deprecated_service_running"
      condition := "deprecated_services_detected > threshold"
      threshold := 0
      duration := 0
      level := .warning
      channels := [.email] } ]

/-- `setup_default_config`: every default notification channel starts
disabled ("Disabled until configured"). -/
def defaultChannels : List (AlertChannel × NotificationChannel) :=
  [ (.email, { channel_type := .email, enabled := false }),
    (.slack, { channel_type := .slack, enabled := false }),
    (.sns, { channel_type := .sns, enabled := false }),
    (.webhook, { channel_type := .webhook, enabled := false }),
    (.pagerduty, { channel_type := .pagerduty, enabled := false }) ]

/-- `AlertManager.__init__` with the default configuration. -/
def mkDefaultState : AMState :=
  { active_alerts := []
    alert_history := []
    rules := defaultRules
    channels := defaultChannels
    last_notification := [] }

/-- `AlertManager.__init__` with a loaded rule/channel configuration. -/
def mkState (rules : List AlertRule) (channels : List (AlertChannel × NotificationChannel)) :
    AMState :=
  { active_alerts := []
    alert_history := []
    rules := rules
    channels := channels
    last_notification := [] }

/-- An empty metrics snapshot (no key present). -/
def emptyMetrics : Metrics := {}

/-! ### Association-list lemmas -/

theorem lookupA_eraseA {β : Type} (k : String) (l : List (String × β)) :
    lookupA k (eraseA k l) = none := by
  induction l with
  | nil => rfl
  | cons p rest ih =>
    by_cases h : p.1 = k
    · simpa [eraseA, h] using ih
    · simpa [eraseA, lookupA, h] using ih

theorem lookupA_insertA_self {β : Type} (k : String) (v : β) (l : List (String × β)) :
    lookupA k (insertA k v l) = some v := by
  induction l with
  | nil => simp [insertA, lookupA]
  | cons p rest ih =>
    by_cases h : p.1 = k
    · simp [insertA, lookupA, h]
    · simp [insertA, lookupA, h, ih]

theorem lookupA_insertA_other {β : Type} (k k2 : String) (v : β) (l : List (String × β))
    (hne : k2 ≠ k) : lookupA k2 (insertA k v l) = lookupA k2 l := by
  induction l with
  | nil => simp [insertA, lookupA, Ne.symm hne]
  | cons p rest ih =>
    by_cases h : p.1 = k
    · simp [insertA, lookupA, h, Ne.symm hne]
    · by_cases h2 : p.1 = k2
      · simp [insertA, lookupA, h, h2, hne]
      · simp [insertA, lookupA, h, h2, ih]

theorem insertA_of_lookup_none {β : Type} (k : String) (v : β) (l : List (String × β))
    (h : lookupA k l = none) : insertA k v l = l ++ [(k, v)] := by
  induction l with
  | nil => rfl
  | cons p rest ih =>
    by_cases hp : p.1 = k
    · simp [lookupA, hp] at h
    · simp only [lookupA, if_neg hp] at h
      simp [insertA, hp, ih h]

theorem lookupA_map_alerts_none (aid : String) (gen : List Alert)
    (h : ∀ a ∈ gen, a.alert_id ≠ aid) :
    lookupA aid (gen.map (fun a => (a.alert_id, a))) = none := by
  induction gen with
  | nil => rfl
  | cons a rest ih =>
    simp only [List.map_cons, lookupA]
    rw [if_neg (h a (List.mem_cons_self a rest))]
    exact ih (fun b hb => h b (List.mem_cons_of_mem a hb))

/-! ### Fields of the manager state untouched by the evaluation loop -/

theorem evalRuleStep_fields (ce : CondEval) (now : Nat) (m : Metrics)
    (acc : AMState × List Alert) (r : AlertRule) :
    (evalRuleStep ce now m acc r).1.alert_history = acc.1.alert_history ∧
    (evalRuleStep ce now m acc r).1.rules = acc.1.rules ∧
    (evalRuleStep ce now m acc r).1.channels = acc.1.channels := by
  unfold evalRuleStep fireAlert
  repeat' split
  all_goals exact ⟨rfl, rfl, rfl⟩

theorem evalFold_fields (ce : CondEval) (now : Nat) (m : Metrics) :
    ∀ (rs : List AlertRule) (acc : AMState × List Alert),
      (rs.foldl (evalRuleStep ce now m) acc).1.alert_history = acc.1.alert_history ∧
      (rs.foldl (evalRuleStep ce now m) acc).1.rules = acc.1.rules ∧
      (rs.foldl (evalRuleStep ce now m) acc).1.channels = acc.1.channels := by
  intro rs
  induction rs with
  | nil => intro acc; exact ⟨rfl, rfl, rfl⟩
  | cons r rest ih =>
    intro acc
    have hstep := evalRuleStep_fields ce now m acc r
    have htail := ih (evalRuleStep ce now m acc r)
    simp only [List.foldl_cons]
    exact ⟨htail.1.trans hstep.1, htail.2.1.trans hstep.2.1, htail.2.2.trans hstep.2.2⟩

/-! ### The history cap -/

theorem capHistory_length (h : List Alert) : (capHistory h).length = min h.length 100 := by
  unfold capHistory
  split
  · simp only [List.length_drop]
    omega
  · omega

theorem capHistory_suffix (h : List Alert) : capHistory h <:+ h := by
  unfold capHistory
  split
  · exact List.drop_suffix _ _
  · exact List.suffix_refl _

/-- C3.  After every `process_alerts` call the history holds at most 100
entries; its length is exactly `min (old + new) 100`, and it is a suffix of
the old history followed by the newly recorded alerts — so when the cap
forces eviction it is exactly the oldest entries that are dropped, and the
relative order of the remaining entries is preserved (FIFO). -/
theorem history_capped_fifo (now : Nat) (m : Metrics) (st : AMState) :
    ((process_alerts now m st).1.alert_history).length ≤ 100 ∧
    ((process_alerts now m st).1.alert_history).length
      = min (st.alert_history.length + ((process_alerts now m st).2).length) 100 ∧
    (process_alerts now m st).1.alert_history <:+
      st.alert_history ++ (process_alerts now m st).2 := by
  have hfields := evalFold_fields okEval now m st.rules (st, [])
  have hhist : (evaluate_rules now m st).1.alert_history = st.alert_history := hfields.1
  have h0 : (process_alerts now m st).1.alert_history
      = capHistory ((evaluate_rules now m st).1.alert_history ++ (evaluate_rules now m st).2) :=
    rfl
  rw [hhist] at h0
  have h2 : (process_alerts now m st).2 = (evaluate_rules now m st).2 := rfl
  refine ⟨?_, ?_, ?_⟩
  · rw [h0, capHistory_length]
    omega
  · rw [h0, h2, capHistory_length, List.length_append]
  · rw [h0, h2]
    exact capHistory_suffix _

/-- C8.  An id that is not a key of the active map makes both
`acknowledge_alert` and `resolve_alert` a complete no-op: the whole manager
state (active map, history, cooldown map, every flag) is returned
unchanged, and no error is raised. -/
theorem unknown_id_noop (aid : String) (st : AMState)
    (h : lookupA aid st.active_alerts = none) :
    acknowledge_alert aid st = st ∧ resolve_alert aid st = st := by
  unfold acknowledge_alert resolve_alert
  rw [h]
  simp

/-- Witness for `unknown_id_noop` on the default manager state and an id
that was never recorded. -/
theorem unknown_id_noop_witness :
    acknowledge_alert "agent_down_999" mkDefaultState = mkDefaultState ∧
    resolve_alert "agent_down_999" mkDefaultState = mkDefaultState :=
  unknown_id_noop "agent_down_999" mkDefaultState rfl

/-- C9.  The pagerduty payload has exactly the claimed shape: routing_key
from config, event_action "trigger", dedup_key `<component>_<level>`,
summary/source/component/custom_details as in the source, and severity
"critical" exactly for critical or emergency alerts, "warning" otherwise. -/
theorem pagerduty_payload_shape (a : Alert) (cfg : PagerdutyConfig)
    (h : cfg.integration_key ≠ "") :
    buildPagerdutyEvent a cfg =
      some
        { routing_key := cfg.integration_key
          event_action := "trigger"
          dedup_key := a.component ++ "_" ++ a.level.value
          payload :=
            { summary := a.title
              source := "agent-monitoring"
              severity :=
                if a.level = AlertLevel.critical ∨ a.level = AlertLevel.emergency then "critical"
                else "warning"
              component := a.component
              custom_details := { message := a.message, metadata := a.metadata } } } := by
  cases hl : a.level <;> simp [buildPagerdutyEvent, h, hl]

/-- Witness for `pagerduty_payload_shape` on a concrete warning alert. -/
theorem pagerduty_payload_shape_witness :
    buildPagerdutyEvent
        { level := AlertLevel.warning
          title := "Alert: High Cpu"
          message := "m"
          component := "high_cpu"
          timestamp := 7
          metadata := emptyMetrics
          alert_id := "high_cpu_7" }
        { integration_key := "k" } =
      some
        { routing_key := "k"
          event_action := "trigger"
          dedup_key := "high_cpu" ++ "_" ++ AlertLevel.warning.value
          payload :=
            { summary := "Alert: High Cpu"
              source := "agent-monitoring"
              severity :=
                if AlertLevel.warning = AlertLevel.critical ∨
                    AlertLevel.warning = AlertLevel.emergency then "critical"
                else "warning"
              component := "high_cpu"
              custom_details := { message := "m", metadata := emptyMetrics } } } :=
  pagerduty_payload_shape
    { level := AlertLevel.warning
      title := "Alert: High Cpu"
      message := "m"
      component := "high_cpu"
      timestamp := 7
      metadata := emptyMetrics
      alert_id := "high_cpu_7" }
    { integration_key := "k" } (by decide)

/-- C10.  Against an empty metrics map every exceeds-threshold default
condition reads its default 0 and is false, the health condition reads
'unknown' and is false, but `agent_down` compares 0 < 3 and is true — so
the default rule set fires exactly one alert, the critical `agent_down`
one, at every cycle time. -/
theorem empty_metrics_agent_down (t : Nat) :
    (defaultRules.map (fun r => evalCondition r emptyMetrics))
      = [false, true, false, false, false, false] ∧
    ((evaluate_rules t emptyMetrics mkDefaultState).2.map (fun a => (a.component, a.level)))
      = [("agent_down", AlertLevel.critical)] := by
  exact ⟨by decide, rfl⟩

/-! ### C5: per-rule failure isolation -/

theorem evalRuleStep_of_error (ce : CondEval) (now : Nat) (m : Metrics)
    (acc : AMState × List Alert) (r : AlertRule) (herr : ce r m = .error ()) :
    evalRuleStep ce now m acc r = acc := by
  unfold evalRuleStep
  rw [herr]
  split <;> rfl

theorem evalRuleStep_of_false (ce : CondEval) (now : Nat) (m : Metrics)
    (acc : AMState × List Alert) (r : AlertRule) (hf : ce r m = .ok false) :
    evalRuleStep ce now m acc r = acc := by
  unfold evalRuleStep
  rw [hf]
  split <;> rfl

/-- C5.  (a) If evaluating one enabled rule's condition raises, that rule
alone is skipped: the evaluation of the whole list equals the evaluation
with that rule removed, so every remaining rule is still evaluated on the
same state.  (b) An enabled rule whose condition string matches none of the
six supported kinds evaluates to not triggered (raising nothing, since the
final branch of `_evaluate_condition` is `return False`) and likewise drops
out of the evaluation without affecting any other rule. -/
theorem rule_failure_isolated (ce : CondEval) (now : Nat) (m : Metrics) (st : AMState)
    (rs1 rs2 : List AlertRule) (rerr runsup : AlertRule)
    (_hen : rerr.enabled = true) (herr : ce rerr m = .error ())
    (h1 : strContains runsup.condition "response_time_ms" = false)
    (h2 : strContains runsup.condition "active_agents" = false)
    (h3 : strContains runsup.condition "cpu_percent" = false)
    (h4 : strContains runsup.condition "memory_percent" = false)
    (h5 : strContains runsup.condition "overall_health == \x27critical\x27" = false)
    (h6 : strContains runsup.condition "deprecated_services_detected" = false) :
    evalRulesOn ce now m st (rs1 ++ rerr :: rs2) = evalRulesOn ce now m st (rs1 ++ rs2) ∧
    evalCondition runsup m = false ∧
    evalRulesOn okEval now m st (rs1 ++ runsup :: rs2)
      = evalRulesOn okEval now m st (rs1 ++ rs2) := by
  have hcond : evalCondition runsup m = false := by
    unfold evalCondition
    rw [h1, h2, h3, h4, h5, h6]
    rfl
  refine ⟨?_, hcond, ?_⟩
  · unfold evalRulesOn
    rw [List.foldl_append, List.foldl_append, List.foldl_cons,
      evalRuleStep_of_error ce now m _ rerr herr]
  · unfold evalRulesOn
    rw [List.foldl_append, List.foldl_append, List.foldl_cons,
      evalRuleStep_of_false okEval now m _ runsup (by simp [okEval, hcond])]

/-- Witness for `rule_failure_isolated`: an always-raising evaluator, an
enabled rule, and an enabled rule with the unsupported condition
"foo == bar", evaluated over the default manager state. -/
theorem rule_failure_isolated_witness :
    evalRulesOn (fun _ _ => Except.error ()) 3 emptyMetrics mkDefaultState
        ([] ++ { name := "r1", condition := "active_agents < threshold", threshold := 3,
                 duration := 0, level := AlertLevel.critical, channels := [] } :: [])
      = evalRulesOn (fun _ _ => Except.error ()) 3 emptyMetrics mkDefaultState ([] ++ []) ∧
    evalCondition { name := "r2", condition := "foo == bar", threshold := 0, duration := 0,
                    level := AlertLevel.info, channels := [] } emptyMetrics = false ∧
    evalRulesOn okEval 3 emptyMetrics mkDefaultState
        ([] ++ { name := "r2", condition := "foo == bar", threshold := 0, duration := 0,
                 level := AlertLevel.info, channels := [] } :: [])
      = evalRulesOn okEval 3 emptyMetrics mkDefaultState ([] ++ []) :=
  rule_failure_isolated (fun _ _ => Except.error ()) 3 emptyMetrics mkDefaultState [] []
    { name := "r1", condition := "active_agents < threshold", threshold := 3,
      duration := 0, level := AlertLevel.critical, channels := [] }
    { name := "r2", condition := "foo == bar", threshold := 0, duration := 0,
      level := AlertLevel.info, channels := [] }
    rfl rfl (by decide) (by decide) (by decide) (by decide) (by decide) (by decide)

/-! ### C6: per-channel failure isolation -/

/-- The delivery attempts one loop iteration of `send_alert` contributes
for channel `ct`: none when the channel is unconfigured or disabled, one
(with its caught outcome) otherwise. -/
def channelAttempt (dl : Deliver) (channels : List (AlertChannel × NotificationChannel))
    (a : Alert) (ct : AlertChannel) : List (AlertChannel × Except Unit Unit) :=
  match lookupC ct channels with
  | none => []
  | some ch => if ch.enabled = false then [] else [(ct, dl a ct)]

theorem sendChannelStep_eq (dl : Deliver) (channels : List (AlertChannel × NotificationChannel))
    (a : Alert) (acc : List (AlertChannel × Except Unit Unit)) (ct : AlertChannel) :
    sendChannelStep dl channels a acc ct = acc ++ channelAttempt dl channels a ct := by
  unfold sendChannelStep channelAttempt
  split
  · simp
  · split <;> simp

theorem sendFold_acc (dl : Deliver) (channels : List (AlertChannel × NotificationChannel))
    (a : Alert) :
    ∀ (cts : List AlertChannel) (acc : List (AlertChannel × Except Unit Unit)),
      cts.foldl (sendChannelStep dl channels a) acc
        = acc ++ cts.foldl (sendChannelStep dl channels a) [] := by
  intro cts
  induction cts with
  | nil => intro acc; simp
  | cons c rest ih =>
    intro acc
    simp only [List.foldl_cons]
    rw [ih (sendChannelStep dl channels a acc c), ih (sendChannelStep dl channels a [] c),
      sendChannelStep_eq, sendChannelStep_eq, List.nil_append, List.append_assoc]

/-- C6.  Channels are processed independently by `send_alert`: a channel
absent from the configuration and a channel whose configuration is
disabled contribute zero delivery attempts (hence zero errors), and in
general the attempt list of `cs1 ++ [c] ++ cs2` splits into the attempts
for `cs1`, the attempt for `c` (whose failure is caught), and the attempts
for `cs2` — so one channel's failure never suppresses the others. -/
theorem channels_independent (dl : Deliver)
    (channels : List (AlertChannel × NotificationChannel)) (a : Alert)
    (cs1 cs2 : List AlertChannel) (cAbs cDis : AlertChannel) (chd : NotificationChannel)
    (hAbs : lookupC cAbs channels = none)
    (hDis : lookupC cDis channels = some chd) (hOff : chd.enabled = false) :
    send_alert dl channels a (cs1 ++ cAbs :: cs2) = send_alert dl channels a (cs1 ++ cs2) ∧
    send_alert dl channels a (cs1 ++ cDis :: cs2) = send_alert dl channels a (cs1 ++ cs2) ∧
    (∀ c : AlertChannel,
      send_alert dl channels a (cs1 ++ c :: cs2)
        = send_alert dl channels a cs1 ++ channelAttempt dl channels a c
            ++ send_alert dl channels a cs2) := by
  have hsplit : ∀ c : AlertChannel,
      send_alert dl channels a (cs1 ++ c :: cs2)
        = send_alert dl channels a cs1 ++ channelAttempt dl channels a c
            ++ send_alert dl channels a cs2 := by
    intro c
    unfold send_alert
    rw [List.foldl_append, List.foldl_cons, sendFold_acc dl channels a cs2,
      sendChannelStep_eq]
  have hsplit2 : send_alert dl channels a (cs1 ++ cs2)
      = send_alert dl channels a cs1 ++ send_alert dl channels a cs2 := by
    unfold send_alert
    rw [List.foldl_append, sendFold_acc dl channels a cs2]
  refine ⟨?_, ?_, hsplit⟩
  · rw [hsplit cAbs, hsplit2]
    simp [channelAttempt, hAbs]
  · rw [hsplit cDis, hsplit2]
    simp [channelAttempt, hDis, hOff]

/-- Witness for `channels_independent`: the default channel table (all
channels present but disabled) with the sns entry removed, a failing
deliverer, and the email channel disabled. -/
theorem channels_independent_witness :
    send_alert (fun _ _ => Except.error ())
        [ (AlertChannel.email, { channel_type := AlertChannel.email, enabled := false }) ]
        { level := AlertLevel.info, title := "t", message := "m", component := "c",
          timestamp := 0, metadata := emptyMetrics, alert_id := "c_0" }
        ([AlertChannel.email] ++ AlertChannel.sns :: [])
      = send_alert (fun _ _ => Except.error ())
          [ (AlertChannel.email, { channel_type := AlertChannel.email, enabled := false }) ]
          { level := AlertLevel.info, title := "t", message := "m", component := "c",
            timestamp := 0, metadata := emptyMetrics, alert_id := "c_0" }
          ([AlertChannel.email] ++ []) ∧
    send_alert (fun _ _ => Except.error ())
        [ (AlertChannel.email, { channel_type := AlertChannel.email, enabled := false }) ]
        { level := AlertLevel.info, title := "t", message := "m", component := "c",
          timestamp := 0, metadata := emptyMetrics, alert_id := "c_0" }
        ([AlertChannel.email] ++ AlertChannel.email :: [])
      = send_alert (fun _ _ => Except.error ())
          [ (AlertChannel.email, { channel_type := AlertChannel.email, enabled := false }) ]
          { level := AlertLevel.info, title := "t", message := "m", component := "c",
            timestamp := 0, metadata := emptyMetrics, alert_id := "c_0" }
          ([AlertChannel.email] ++ []) ∧
    (∀ c : AlertChannel,
      send_alert (fun _ _ => Except.error ())
          [ (AlertChannel.email, { channel_type := AlertChannel.email, enabled := false }) ]
          { level := AlertLevel.info, title := "t", message := "m", component := "c",
            timestamp := 0, metadata := emptyMetrics, alert_id := "c_0" }
          ([AlertChannel.email] ++ c :: [])
        = send_alert (fun _ _ => Except.error ())
            [ (AlertChannel.email, { channel_type := AlertChannel.email, enabled := false }) ]
            { level := AlertLevel.info, title := "t", message := "m", component := "c",
              timestamp := 0, metadata := emptyMetrics, alert_id := "c_0" }
            [AlertChannel.email] ++
            channelAttempt (fun _ _ => Except.error ())
              [ (AlertChannel.email, { channel_type := AlertChannel.email, enabled := false }) ]
              { level := AlertLevel.info, title := "t", message := "m", component := "c",
                timestamp := 0, metadata := emptyMetrics, alert_id := "c_0" } c ++
            send_alert (fun _ _ => Except.error ())
              [ (AlertChannel.email, { channel_type := AlertChannel.email, enabled := false }) ]
              { level := AlertLevel.info, title := "t", message := "m", component := "c",
                timestamp := 0, metadata := emptyMetrics, alert_id := "c_0" } []) :=
  channels_independent (fun _ _ => Except.error ())
    [ (AlertChannel.email, { channel_type := AlertChannel.email, enabled := false }) ]
    { level := AlertLevel.info, title := "t", message := "m", component := "c",
      timestamp := 0, metadata := emptyMetrics, alert_id := "c_0" }
    [AlertChannel.email] [] AlertChannel.sns AlertChannel.email
    { channel_type := AlertChannel.email, enabled := false }
    (by decide) (by decide) rfl

/-! ### C7: resolve removes from active, stays in history as resolved -/

theorem lookupA_isSome_of_some {β : Type} (k : String) (v : β) (l : List (String × β))
    (h : lookupA k l = some v) : (lookupA k l).isSome = true := by rw [h]; rfl

theorem mem_of_lookupA {β : Type} (k : String) (v : β) :
    ∀ l : List (String × β), lookupA k l = some v → (k, v) ∈ l := by
  intro l
  induction l with
  | nil => intro h; simp [lookupA] at h
  | cons p rest ih =>
    intro h
    by_cases hp : p.1 = k
    · simp only [lookupA, if_pos hp] at h
      have hv : p.2 = v := Option.some.inj h
      have hkv : (k, v) = p := by rw [← hp, ← hv]
      rw [← hkv] at *
      exact List.mem_cons_self (k, v) rest
    · simp only [lookupA, if_neg hp] at h
      exact List.mem_cons_of_mem p (ih h)

/-- C7.  If `aid` is an active key then `resolve_alert aid` removes it from
the active map — no active-alerts listing entry carries that id any more
(assuming the reachable-state invariant that each active entry is keyed by
its alert's id) — while every history entry with that id stays in the
history with `resolved = true`; if such an entry is among the last 10
history entries, the summary built afterwards still shows it, with
`resolved = true`. -/
theorem resolve_removes_active_keeps_history (aid : String) (st : AMState) (a a2 : Alert)
    (hact : lookupA aid st.active_alerts = some a)
    (hwf : ∀ p ∈ st.active_alerts, p.1 = p.2.alert_id)
    (hhist : a2 ∈ st.alert_history) (hid : a2.alert_id = aid) :
    lookupA aid (resolve_alert aid st).active_alerts = none ∧
    (∀ b ∈ getActiveAlerts (resolve_alert aid st), b.alert_id ≠ aid) ∧
    { a2 with resolved := true } ∈ (resolve_alert aid st).alert_history ∧
    (a2 ∈ st.alert_history.drop (st.alert_history.length - 10) →
      toRecent { a2 with resolved := true } ∈ (get_alert_summary (resolve_alert aid st)).recent_alerts) := by
  have hres : resolve_alert aid st
      = { updateAlertObj (fun x => { x with resolved := true }) aid st with
          active_alerts :=
            eraseA aid (updateAlertObj (fun x => { x with resolved := true }) aid st).active_alerts } := by
    unfold resolve_alert
    rw [hact]
    rfl
  have hactive : (resolve_alert aid st).active_alerts
      = eraseA aid (st.active_alerts.map (fun p => if p.1 = aid then (p.1, { p.2 with resolved := true }) else p)) := by
    rw [hres]
    rfl
  have hhist2 : (resolve_alert aid st).alert_history
      = st.alert_history.map (fun x => if x.alert_id = aid then { x with resolved := true } else x) := by
    rw [hres]
    rfl
  have hrecent : (get_alert_summary (resolve_alert aid st)).recent_alerts
      = ((resolve_alert aid st).alert_history.drop
          ((resolve_alert aid st).alert_history.length - 10)).map toRecent := rfl
  refine ⟨?_, ?_, ?_, ?_⟩
  · rw [hactive]
    exact lookupA_eraseA aid _
  · intro b hb
    unfold getActiveAlerts at hb
    rw [hactive] at hb
    obtain ⟨p, hp, hpb⟩ := List.mem_map.mp hb
    unfold eraseA at hp
    rw [List.mem_filter] at hp
    obtain ⟨hpmem, hpne⟩ := hp
    obtain ⟨q, hq, hqp⟩ := List.mem_map.mp hpmem
    by_cases hqa : q.1 = aid
    · rw [if_pos hqa] at hqp
      rw [← hqp] at hpne
      simp [hqa] at hpne
    · rw [if_neg hqa] at hqp
      rw [← hqp] at hpb
      rw [← hpb]
      rw [← hwf q hq]
      exact hqa
  · rw [hhist2]
    have := List.mem_map_of_mem
      (fun x => if x.alert_id = aid then { x with resolved := true } else x) hhist
    simpa [hid] using this
  · intro hin
    rw [hrecent, hhist2]
    simp only [List.length_map]
    rw [← List.map_drop]
    have h1 := List.mem_map_of_mem
      (fun x => if x.alert_id = aid then { x with resolved := true } else x) hin
    simp only [hid, if_true, if_pos] at h1
    simp only [hid]
    exact List.mem_map_of_mem toRecent h1

/-- A concrete recorded alert for exercising the store operations. -/
def c7Alert : Alert :=
  { level := AlertLevel.critical
    title := "Alert: Agent Down"
    message := "Only 0 agents active (minimum: 3)"
    component := "agent_down"
    timestamp := 5
    metadata := emptyMetrics
    alert_id := "agent_down_5" }

/-- A concrete manager state holding `c7Alert` both active and in history. -/
def c7State : AMState :=
  { active_alerts := [("agent_down_5", c7Alert)]
    alert_history := [c7Alert]
    rules := defaultRules
    channels := defaultChannels
    last_notification := [("agent_down", 5)] }

/-- Witness for `resolve_removes_active_keeps_history` on `c7State`. -/
theorem resolve_removes_active_keeps_history_witness :
    lookupA "agent_down_5" (resolve_alert "agent_down_5" c7State).active_alerts = none ∧
    (∀ b ∈ getActiveAlerts (resolve_alert "agent_down_5" c7State), b.alert_id ≠ "agent_down_5") ∧
    { c7Alert with resolved := true } ∈ (resolve_alert "agent_down_5" c7State).alert_history ∧
    (c7Alert ∈ c7State.alert_history.drop (c7State.alert_history.length - 10) →
      toRecent { c7Alert with resolved := true } ∈
        (get_alert_summary (resolve_alert "agent_down_5" c7State)).recent_alerts) :=
  resolve_removes_active_keeps_history "agent_down_5" c7State c7Alert c7Alert
    (by decide) (by decide) (by decide) (by decide)

/-! ### C2: the weighted health score -/

theorem foldl_add_acc : ∀ (l : List Nat) (a : Nat), l.foldl (· + ·) a = a + l.sum := by
  intro l
  induction l with
  | nil => intro a; simp
  | cons x rest ih =>
    intro a
    simp only [List.foldl_cons, List.sum_cons]
    rw [ih (a + x)]
    omega

theorem healthScores_step_acc :
    ∀ (checks : List (String × Option String)) (acc : List Nat),
      checks.foldl
          (fun acc p =>
            acc ++ List.replicate (if p.1 ∈ criticalChecks then 2 else 1)
              (statusScore (p.2.getD "unknown"))) acc
        = acc ++ healthScores checks := by
  intro checks
  induction checks with
  | nil => intro acc; simp [healthScores]
  | cons p rest ih =>
    intro acc
    simp only [List.foldl_cons]
    rw [ih]
    have h2 : healthScores (p :: rest)
        = List.replicate (if p.1 ∈ criticalChecks then 2 else 1)
            (statusScore (p.2.getD "unknown")) ++ healthScores rest := by
      unfold healthScores
      simp only [List.foldl_cons, List.nil_append]
      exact ih _
    rw [h2, List.append_assoc]

theorem healthScores_cons (p : String × Option String) (rest : List (String × Option String)) :
    healthScores (p :: rest)
      = List.replicate (if p.1 ∈ criticalChecks then 2 else 1) (statusScore (p.2.getD "unknown"))
          ++ healthScores rest := by
  unfold healthScores
  simp only [List.foldl_cons, List.nil_append]
  exact healthScores_step_acc rest _

theorem sum_replicate_nat : ∀ (n x : Nat), (List.replicate n x).sum = n * x := by
  intro n x
  induction n with
  | zero => simp
  | succ k ih => simp [List.replicate_succ, ih, Nat.succ_mul]; omega

theorem healthScores_length (checks : List (String × Option String)) :
    (healthScores checks).length
      = (checks.map (fun p => if p.1 ∈ criticalChecks then (2 : ℕ) else 1)).sum := by
  induction checks with
  | nil => rfl
  | cons p rest ih =>
    rw [healthScores_cons, List.length_append, List.length_replicate, List.map_cons,
      List.sum_cons, ih]

theorem healthScores_sum (checks : List (String × Option String)) :
    (healthScores checks).sum
      = (checks.map (fun p =>
          (if p.1 ∈ criticalChecks then (2 : ℕ) else 1) * statusScore (p.2.getD "unknown"))).sum := by
  induction checks with
  | nil => rfl
  | cons p rest ih =>
    rw [healthScores_cons, List.sum_append, sum_replicate_nat, List.map_cons, List.sum_cons, ih]

/-- Modelled from the spec's own words, for comparison with the source
computation: the weighted average of the per-check scores, critical checks
counted twice, all others once; 0 on an empty check set. -/
def specWeightedAverage (checks : List (String × Option String)) : ℚ :=
  let wtot := (checks.map (fun p => if p.1 ∈ criticalChecks then (2 : ℕ) else 1)).sum
  let wsum := (checks.map (fun p =>
    (if p.1 ∈ criticalChecks then (2 : ℕ) else 1) * statusScore (p.2.getD "unknown"))).sum
  if wtot = 0 then 0 else (wsum : ℚ) / (wtot : ℚ)

/-- C2.  The overall health score computed by `check_system_health` is the
weighted average of the per-check scores (healthy=100, warning=70,
failed=0, anything else 50), with `discovery_server` and `daemon_agents`
counted twice and every other check once; the status is `healthy` when
that average is at least 90, `warning` when at least 70, else `critical`;
an empty check set scores 0 with status `critical`.  The computation is a
pure function of the check statuses (the source merely rounds the
*reported* score to one decimal for display; the status is derived from
the unrounded value modelled here). -/
theorem health_score_weighted (checks : List (String × Option String)) :
    overallScore checks = specWeightedAverage checks ∧
    overallStatus checks =
      (if specWeightedAverage checks ≥ 90 then "healthy"
       else if specWeightedAverage checks ≥ 70 then "warning" else "critical") ∧
    overallScore [] = 0 ∧ overallStatus [] = "critical" := by
  have e1 : overallScore checks = specWeightedAverage checks := by
    simp only [overallScore, specWeightedAverage]
    rw [foldl_add_acc _ 0, Nat.zero_add, healthScores_length, healthScores_sum]
  refine ⟨e1, ?_, by decide, by decide⟩
  unfold overallStatus
  rw [e1]

/-! ### Alert-id strings: `<name>_<decimal seconds>` -/

/-- Numeric value of a decimal digit character (proof support). -/
def charVal (c : Char) : Nat := c.toNat - 48

/-- Value of a little-endian decimal digit list (proof support). -/
def chListVal : List Char → Nat
  | [] => 0
  | c :: cs => charVal c + 10 * chListVal cs

theorem charVal_digitChar (d : Nat) (h : d < 10) : charVal (Nat.digitChar d) = d := by
  interval_cases d <;> rfl

theorem digitChar_ne_underscore (d : Nat) (h : d < 10) : Nat.digitChar d ≠ '_' := by
  interval_cases d <;> decide

theorem chListVal_natReprCore : ∀ n fuel, n ≤ fuel → chListVal (natReprCore fuel n) = n := by
  intro n
  induction n using Nat.strong_induction_on with
  | _ n ih =>
    intro fuel hle
    match n, fuel with
    | 0, _ => simp [natReprCore, chListVal]
    | n + 1, 0 => omega
    | n + 1, fuel + 1 =>
      have hdiv : (n + 1) / 10 < n + 1 := Nat.div_lt_self (Nat.succ_pos n) (by omega)
      have h1 : chListVal (natReprCore fuel ((n + 1) / 10)) = (n + 1) / 10 :=
        ih ((n + 1) / 10) hdiv fuel (by omega)
      have h2 : charVal (Nat.digitChar ((n + 1) % 10)) = (n + 1) % 10 :=
        charVal_digitChar _ (Nat.mod_lt _ (by omega))
      simp only [natReprCore, chListVal, h1, h2]
      omega

theorem mem_natReprCore : ∀ fuel n c, c ∈ natReprCore fuel n → ∃ d, d < 10 ∧ c = Nat.digitChar d := by
  intro fuel
  induction fuel with
  | zero =>
    intro n c hc
    match n with
    | 0 => simp [natReprCore] at hc
    | _ + 1 => simp [natReprCore] at hc
  | succ f ih =>
    intro n c hc
    match n with
    | 0 => simp [natReprCore] at hc
    | k + 1 =>
      simp only [natReprCore, List.mem_cons] at hc
      rcases hc with hc | hc
      · exact ⟨(k + 1) % 10, Nat.mod_lt _ (by omega), hc⟩
      · exact ih _ c hc

theorem natRepr_no_underscore (n : Nat) : '_' ∉ (natRepr n).data := by
  unfold natRepr
  split
  · decide
  · intro hmem
    rw [show (⟨(natReprCore n n).reverse⟩ : String).data = (natReprCore n n).reverse from rfl,
      List.mem_reverse] at hmem
    obtain ⟨d, hd, hc⟩ := mem_natReprCore n n '_' hmem
    exact digitChar_ne_underscore d hd hc.symm

theorem natRepr_inj (m n : Nat) (h : natRepr m = natRepr n) : m = n := by
  have hdata : (natRepr m).data = (natRepr n).data := by rw [h]
  unfold natRepr at hdata
  by_cases hm : m = 0 <;> by_cases hn : n = 0
  · omega
  · rw [if_pos hm, if_neg hn] at hdata
    have hcore : natReprCore n n = ['0'] := by
      have : (natReprCore n n).reverse = ['0'] := hdata.symm
      have h2 := congrArg List.reverse this
      simpa using h2
    have := chListVal_natReprCore n n (le_refl n)
    rw [hcore] at this
    simp [chListVal, charVal] at this
    omega
  · rw [if_neg hm, if_pos hn] at hdata
    have hcore : natReprCore m m = ['0'] := by
      have : (natReprCore m m).reverse = ['0'] := hdata
      have h2 := congrArg List.reverse this
      simpa using h2
    have := chListVal_natReprCore m m (le_refl m)
    rw [hcore] at this
    simp [chListVal, charVal] at this
    omega
  · rw [if_neg hm, if_neg hn] at hdata
    have hrev : (natReprCore m m).reverse = (natReprCore n n).reverse := hdata
    have hcore : natReprCore m m = natReprCore n n := by
      have h2 := congrArg List.reverse hrev
      simpa using h2
    have e1 := chListVal_natReprCore m m (le_refl m)
    have e2 := chListVal_natReprCore n n (le_refl n)
    rw [hcore] at e1
    omega

theorem sep_inj : ∀ (l1 l2 r1 r2 : List Char), '_' ∉ r1 → '_' ∉ r2 →
    l1 ++ '_' :: r1 = l2 ++ '_' :: r2 → l1 = l2 ∧ r1 = r2 := by
  intro l1
  induction l1 with
  | nil =>
    intro l2 r1 r2 h1 h2 heq
    match l2 with
    | [] =>
      simp only [List.nil_append] at heq
      exact ⟨rfl, (List.cons.injEq _ _ _ _ ▸ heq).2⟩
    | c :: t2 =>
      simp only [List.nil_append, List.cons_append, List.cons.injEq] at heq
      exfalso
      apply h1
      rw [heq.2]
      exact List.mem_append_right t2 (List.mem_cons_self '_' r2)
  | cons c1 t1 ih =>
    intro l2 r1 r2 h1 h2 heq
    match l2 with
    | [] =>
      simp only [List.nil_append, List.cons_append, List.cons.injEq] at heq
      exfalso
      apply h2
      rw [← heq.2]
      exact List.mem_append_right t1 (List.mem_cons_self '_' r1)
    | c2 :: t2 =>
      simp only [List.cons_append, List.cons.injEq] at heq
      obtain ⟨hc, htail⟩ := heq
      obtain ⟨ha, hb⟩ := ih t2 r1 r2 h1 h2 htail
      exact ⟨by rw [hc, ha], hb⟩

theorem idOf_data (name : String) (t : Nat) :
    (idOf name t).data = name.data ++ '_' :: (natRepr t).data := by
  unfold idOf
  rw [String.data_append, String.data_append, List.append_assoc]
  rfl

theorem idOf_inj (n1 n2 : String) (t1 t2 : Nat) (h : idOf n1 t1 = idOf n2 t2) :
    n1 = n2 ∧ t1 = t2 := by
  have hdata : (idOf n1 t1).data = (idOf n2 t2).data := by rw [h]
  rw [idOf_data, idOf_data] at hdata
  obtain ⟨ha, hb⟩ := sep_inj n1.data n2.data (natRepr t1).data (natRepr t2).data
    (natRepr_no_underscore t1) (natRepr_no_underscore t2) hdata
  exact ⟨String.ext ha, natRepr_inj t1 t2 (String.ext hb)⟩

/-! ### Run invariants for cooldown separation and id uniqueness -/

/-- Every rule of the configuration carrying this name has a cooldown of at
least one second. -/
def CoolOK (R0 : List AlertRule) (n : String) : Prop :=
  ∀ r ∈ R0, r.name = n → 1 ≤ r.cooldown

/-- Two generated alerts for the same rule name are separated by at least
that rule's cooldown (or carry equal timestamps under a zero cooldown). -/
def SameNameSep (R0 : List AlertRule) (a b : Alert) : Prop :=
  a.component = b.component →
    ∀ r ∈ R0, r.name = a.component →
      a.timestamp + r.cooldown ≤ b.timestamp ∨ b.timestamp + r.cooldown ≤ a.timestamp ∨
        (a.timestamp = b.timestamp ∧ r.cooldown = 0)

/-- Invariant tying the generated alerts of a run to the cooldown map:
every generated alert has a `last_notification` entry for its rule name at
least as recent as the alert (when that name's cooldown is positive), its
id has the canonical `<name>_<seconds>` form, its component names a
configured rule, and generated alerts are pairwise cooldown-separated. -/
structure GoodGen (R0 : List AlertRule) (ln : List (String × Nat)) (gen : List Alert) : Prop where
  entry : ∀ a ∈ gen, ∃ l, lookupA a.component ln = some l ∧
    (CoolOK R0 a.component → a.timestamp ≤ l)
  ids : ∀ a ∈ gen, a.alert_id = idOf a.component a.timestamp
  comp : ∀ a ∈ gen, ∃ r, r ∈ R0 ∧ r.name = a.component
  sep : List.Pairwise (SameNameSep R0) gen

theorem goodGen_nil (R0 : List AlertRule) (ln : List (String × Nat)) : GoodGen R0 ln [] :=
  ⟨(by intro a ha; cases ha), (by intro a ha; cases ha), (by intro a ha; cases ha),
    List.Pairwise.nil⟩

/-- Firing rule `r` at time `now`, when its cooldown gate allows it,
preserves the invariant and (when every cooldown of its name is positive)
generates an id fresh among all previously generated alerts. -/
theorem fire_preserves (R0 : List AlertRule)
    (hnd : (R0.map (fun r2 => r2.name)).Nodup)
    (r : AlertRule) (hr : r ∈ R0) (now : Nat) (m : Metrics)
    (ln : List (String × Nat)) (gen : List Alert)
    (hg : GoodGen R0 ln gen)
    (hfire : lookupA r.name ln = none ∨
      ∃ l, lookupA r.name ln = some l ∧ ¬(now - l < r.cooldown)) :
    GoodGen R0 (insertA r.name now ln) (gen ++ [mkAlert now m r]) ∧
    (CoolOK R0 r.name → ∀ a ∈ gen, a.alert_id ≠ (mkAlert now m r).alert_id) := by
  have uniq : ∀ r2 ∈ R0, r2.name = r.name → r2 = r := by
    intro r2 h2 hname
    exact List.inj_on_of_nodup_map hnd h2 hr hname
  have hlt : CoolOK R0 r.name → ∀ l, lookupA r.name ln = some l → ¬(now - l < r.cooldown) →
      l < now ∧ l + r.cooldown ≤ now := by
    intro hok l hl hcd
    have hc1 : 1 ≤ r.cooldown := hok r hr rfl
    omega
  constructor
  · refine ⟨?_, ?_, ?_, ?_⟩
    · intro a ha
      rw [List.mem_append] at ha
      rcases ha with ha | ha
      · obtain ⟨l, hl, hle⟩ := hg.entry a ha
        by_cases hcomp : a.component = r.name
        · refine ⟨now, (by rw [hcomp]; exact lookupA_insertA_self _ _ _), ?_⟩
          intro hok
          rw [hcomp] at hl hle
          have hok2 : CoolOK R0 r.name := hcomp ▸ hok
          rcases hfire with hnone | ⟨l2, hl2, hcd⟩
          · rw [hl] at hnone; cases hnone
          · rw [hl] at hl2
            have hll : l = l2 := Option.some.inj hl2
            have h3 := hlt hok2 l hl (by rw [hll]; exact hcd)
            have h4 := hle hok2
            omega
        · exact ⟨l, (by rw [lookupA_insertA_other r.name a.component now ln hcomp]; exact hl),
            hle⟩
      · rw [List.mem_singleton] at ha
        subst ha
        exact ⟨now, lookupA_insertA_self _ _ _, fun _ => le_refl now⟩
    · intro a ha
      rw [List.mem_append] at ha
      rcases ha with ha | ha
      · exact hg.ids a ha
      · rw [List.mem_singleton] at ha
        subst ha
        rfl
    · intro a ha
      rw [List.mem_append] at ha
      rcases ha with ha | ha
      · exact hg.comp a ha
      · rw [List.mem_singleton] at ha
        subst ha
        exact ⟨r, hr, rfl⟩
    · rw [List.pairwise_append]
      refine ⟨hg.sep, List.pairwise_singleton _ _, ?_⟩
      intro a ha b hb
      rw [List.mem_singleton] at hb
      subst hb
      intro hcomp r2 h2 hname
      have hmc : (mkAlert now m r).component = r.name := rfl
      have hmt : (mkAlert now m r).timestamp = now := rfl
      rw [hmc] at hcomp
      rw [hmt]
      have hr2 : r2 = r := uniq r2 h2 (by rw [hname, hcomp])
      rw [hr2]
      by_cases hC : r.cooldown = 0
      · rcases Nat.le_total a.timestamp now with h | h
        · left; omega
        · right; left; omega
      · obtain ⟨l, hl, hle⟩ := hg.entry a ha
        rw [hcomp] at hl hle
        have hok : CoolOK R0 r.name := by
          intro r3 h3 hname3
          have h33 : r3 = r := uniq r3 h3 hname3
          rw [h33]
          omega
        rcases hfire with hnone | ⟨l2, hl2, hcd⟩
        · rw [hl] at hnone; cases hnone
        · rw [hl] at hl2
          have hll : l = l2 := Option.some.inj hl2
          have h1 := hlt hok l hl (by rw [hll]; exact hcd)
          have h2b := hle hok
          left
          omega
  · intro hok a ha heq
    have hid := hg.ids a ha
    rw [hid] at heq
    have hmk : (mkAlert now m r).alert_id = idOf r.name now := rfl
    rw [hmk] at heq
    obtain ⟨hcomp, hts⟩ := idOf_inj _ _ _ _ heq
    obtain ⟨l, hl, hle⟩ := hg.entry a ha
    rw [hcomp] at hl hle
    rcases hfire with hnone | ⟨l2, hl2, hcd⟩
    · rw [hl] at hnone; cases hnone
    · rw [hl] at hl2
      have hll : l = l2 := Option.some.inj hl2
      have h1 := hlt hok l hl (by rw [hll]; exact hcd)
      have h2 := hle hok
      omega

/-- Shape of one loop iteration: it either leaves the accumulator unchanged
or fires the rule after an open cooldown gate. -/
theorem evalRuleStep_shape (ce : CondEval) (now : Nat) (m : Metrics)
    (acc : AMState × List Alert) (r : AlertRule) :
    evalRuleStep ce now m acc r = acc ∨
    ((lookupA r.name acc.1.last_notification = none ∨
        ∃ l, lookupA r.name acc.1.last_notification = some l ∧ ¬(now - l < r.cooldown)) ∧
      evalRuleStep ce now m acc r = fireAlert now m r acc.1 acc.2) := by
  unfold evalRuleStep
  split
  · left; rfl
  · split
    · left; rfl
    · left; rfl
    · split
      · next l hl =>
        by_cases hcd : now - l < r.cooldown
        · rw [if_pos hcd]
          left
          rfl
        · rw [if_neg hcd]
          right
          exact ⟨Or.inr ⟨l, hl, hcd⟩, rfl⟩
      · next hl =>
        right
        exact ⟨Or.inl hl, rfl⟩

/-- The evaluation loop preserves `GoodGen` over the alerts generated so
far, appends this cycle's alerts, and — when every configured cooldown is
at least one second — extends the active map with exactly the new alerts,
keyed by their (fresh) ids. -/
theorem evalFold_good (ce : CondEval) (now : Nat) (m : Metrics) (R0 : List AlertRule)
    (hnd : (R0.map (fun r2 => r2.name)).Nodup) :
    ∀ (rs : List AlertRule) (st : AMState) (trig pre : List Alert),
      (∀ r ∈ rs, r ∈ R0) →
      GoodGen R0 st.last_notification (pre ++ trig) →
      ∃ Δ,
        (rs.foldl (evalRuleStep ce now m) (st, trig)).2 = trig ++ Δ ∧
        GoodGen R0 (rs.foldl (evalRuleStep ce now m) (st, trig)).1.last_notification
          (pre ++ (trig ++ Δ)) ∧
        ((∀ r2 ∈ R0, 1 ≤ r2.cooldown) →
          st.active_alerts = (pre ++ trig).map (fun a => (a.alert_id, a)) →
          (rs.foldl (evalRuleStep ce now m) (st, trig)).1.active_alerts
            = (pre ++ (trig ++ Δ)).map (fun a => (a.alert_id, a))) := by
  intro rs
  induction rs with
  | nil =>
    intro st trig pre hsub hg
    refine ⟨[], by simp, by simpa using hg, ?_⟩
    intro hc hact
    simpa using hact
  | cons r rest ih =>
    intro st trig pre hsub hg
    have hrR : r ∈ R0 := hsub r (List.mem_cons_self r rest)
    have hsub2 : ∀ r2 ∈ rest, r2 ∈ R0 := fun r2 h2 => hsub r2 (List.mem_cons_of_mem r h2)
    rcases evalRuleStep_shape ce now m (st, trig) r with hstep | ⟨hfire, hstep⟩
    · rw [List.foldl_cons, hstep]
      exact ih st trig pre hsub2 hg
    · rw [List.foldl_cons, hstep]
      have hfp := fire_preserves R0 hnd r hrR now m st.last_notification (pre ++ trig) hg hfire
      have hg2 : GoodGen R0 (fireAlert now m r st trig).1.last_notification
          (pre ++ (trig ++ [mkAlert now m r])) := by
        have : (fireAlert now m r st trig).1.last_notification
            = insertA r.name now st.last_notification := rfl
        rw [this, ← List.append_assoc]
        exact hfp.1
      have htrig : (fireAlert now m r st trig).2 = trig ++ [mkAlert now m r] := rfl
      obtain ⟨Δ2, hres2, hgood2, hact2⟩ :=
        ih (fireAlert now m r st trig).1 (trig ++ [mkAlert now m r]) pre hsub2
          (by rw [← htrig] at hg2; exact htrig ▸ hg2)
      have hpair : (fireAlert now m r st trig)
          = ((fireAlert now m r st trig).1, trig ++ [mkAlert now m r]) := by
        rw [← htrig]
      rw [hpair]
      refine ⟨[mkAlert now m r] ++ Δ2, ?_, ?_, ?_⟩
      · rw [hres2, List.append_assoc]
      · have := hgood2
        rw [show pre ++ (trig ++ ([mkAlert now m r] ++ Δ2))
            = pre ++ (trig ++ [mkAlert now m r] ++ Δ2) from by simp [List.append_assoc]]
        exact this
      · intro hc hact
        have hcool : CoolOK R0 r.name := fun r2 h2 _ => hc r2 h2
        have hfresh : ∀ a ∈ pre ++ trig, a.alert_id ≠ (mkAlert now m r).alert_id :=
          hfp.2 hcool
        have hnone : lookupA ((mkAlert now m r).alert_id)
            ((pre ++ trig).map (fun a => (a.alert_id, a))) = none :=
          lookupA_map_alerts_none _ _ hfresh
        have hact' : (fireAlert now m r st trig).1.active_alerts
            = (pre ++ (trig ++ [mkAlert now m r])).map (fun a => (a.alert_id, a)) := by
          have e1 : (fireAlert now m r st trig).1.active_alerts
              = insertA ((mkAlert now m r).alert_id) (mkAlert now m r) st.active_alerts := rfl
          rw [e1, hact, insertA_of_lookup_none _ _ _ hnone]
          simp [List.map_append, List.append_assoc]
        have := hact2 hc hact'
        rw [this]
        congr 1
        simp [List.append_assoc]

/-- `GoodGen` carries over every multi-cycle run, together with the
active-map characterization when all cooldowns are positive. -/
theorem runCycles_good (R0 : List AlertRule)
    (hnd : (R0.map (fun r2 => r2.name)).Nodup) :
    ∀ (cycles : List (Nat × Metrics)) (st : AMState) (pre : List Alert),
      st.rules = R0 →
      GoodGen R0 st.last_notification pre →
      ∃ Δ,
        (runCycles st cycles).2 = Δ ∧
        GoodGen R0 (runCycles st cycles).1.last_notification (pre ++ Δ) ∧
        ((∀ r2 ∈ R0, 1 ≤ r2.cooldown) →
          st.active_alerts = pre.map (fun a => (a.alert_id, a)) →
          (runCycles st cycles).1.active_alerts = (pre ++ Δ).map (fun a => (a.alert_id, a))) := by
  intro cycles
  induction cycles with
  | nil =>
    intro st pre hrules hg
    refine ⟨[], rfl, by simpa using hg, ?_⟩
    intro hc hact
    simpa using hact
  | cons c rest ih =>
    intro st pre hrules hg
    obtain ⟨t, mm⟩ := c
    have hsub : ∀ r ∈ st.rules, r ∈ R0 := by
      rw [hrules]
      exact fun r h => h
    obtain ⟨Δ1, hres1, hgood1, hact1⟩ :=
      evalFold_good okEval t mm R0 hnd st.rules st [] pre hsub
        (by simpa using hg)
    have hres1' : (evaluate_rules t mm st).2 = Δ1 := by
      have : (evaluate_rules t mm st).2 = [] ++ Δ1 := hres1
      simpa using this
    have hpln : (process_alerts t mm st).1.last_notification
        = (evaluate_rules t mm st).1.last_notification := rfl
    have hpact : (process_alerts t mm st).1.active_alerts
        = (evaluate_rules t mm st).1.active_alerts := rfl
    have hprules : (process_alerts t mm st).1.rules = R0 := by
      have h1 : (process_alerts t mm st).1.rules = (evaluate_rules t mm st).1.rules := rfl
      have h2 : (evaluate_rules t mm st).1.rules = st.rules :=
        (evalFold_fields okEval t mm st.rules (st, [])).2.1
      rw [h1, h2, hrules]
    have hgood1' : GoodGen R0 (process_alerts t mm st).1.last_notification (pre ++ Δ1) := by
      rw [hpln]
      simpa using hgood1
    obtain ⟨Δ2, hres2, hgood2, hact2⟩ := ih (process_alerts t mm st).1 (pre ++ Δ1)
      hprules hgood1'
    have hrun : runCycles st ((t, mm) :: rest)
        = ((runCycles (process_alerts t mm st).1 rest).1,
           (process_alerts t mm st).2 ++ (runCycles (process_alerts t mm st).1 rest).2) := rfl
    refine ⟨Δ1 ++ Δ2, ?_, ?_, ?_⟩
    · rw [hrun]
      have h2 : (process_alerts t mm st).2 = (evaluate_rules t mm st).2 := rfl
      rw [h2, hres1', hres2]
    · rw [hrun]
      have := hgood2
      rw [← List.append_assoc]
      exact this
    · intro hc hact
      rw [hrun]
      have hactmid : (process_alerts t mm st).1.active_alerts
          = (pre ++ Δ1).map (fun a => (a.alert_id, a)) := by
        rw [hpact]
        have := hact1 hc (by simpa using hact)
        simpa using this
      have := hact2 hc hactmid
      rw [this, ← List.append_assoc]

/-- A `Pairwise` relation may be weakened using facts about the members. -/
theorem pairwise_imp_mem {α : Type} {R S : α → α → Prop} :
    ∀ {l : List α}, (∀ a ∈ l, ∀ b ∈ l, R a b → S a b) → l.Pairwise R → l.Pairwise S := by
  intro l
  induction l with
  | nil => intro _ _; exact List.Pairwise.nil
  | cons x xs ih =>
    intro h hp
    cases hp with
    | cons hx hxs =>
      refine List.Pairwise.cons ?_ ?_
      · intro b hb
        exact h x (List.mem_cons_self x xs) b (List.mem_cons_of_mem x hb) (hx b hb)
      · exact ih (fun a ha b hb => h a (List.mem_cons_of_mem x ha) b (List.mem_cons_of_mem x hb))
          hxs

/-- C4 (amended).  Provided every configured rule has a cooldown of at
least one second and rule names are distinct (both true of the default
configuration; the spec's data model declares names unique), every alert
id generated over any multi-cycle run from a fresh manager is distinct
from every other, and the active map grows by exactly one fresh key per
generated alert — recording never silently replaces a different alert
stored under the same id.  (With a zero cooldown the claim fails: see the
counterexample.) -/
theorem alert_ids_unique (rules : List AlertRule)
    (channels : List (AlertChannel × NotificationChannel)) (cycles : List (Nat × Metrics))
    (hnd : (rules.map (fun r => r.name)).Nodup)
    (hc : ∀ r ∈ rules, 1 ≤ r.cooldown) :
    ((runCycles (mkState rules channels) cycles).2.map (fun a => a.alert_id)).Nodup ∧
    (runCycles (mkState rules channels) cycles).1.active_alerts.length
      = (runCycles (mkState rules channels) cycles).2.length := by
  obtain ⟨Δ, hres, hgood, hact⟩ :=
    runCycles_good rules hnd cycles (mkState rules channels) [] rfl (goodGen_nil rules [])
  have hgood' : GoodGen rules
      (runCycles (mkState rules channels) cycles).1.last_notification Δ := by
    simpa using hgood
  have hne : Δ.Pairwise (fun a b => a.alert_id ≠ b.alert_id) := by
    refine pairwise_imp_mem ?_ hgood'.sep
    intro a ha b hb hsep heq
    have hia := hgood'.ids a ha
    have hib := hgood'.ids b hb
    rw [hia, hib] at heq
    obtain ⟨hcomp, hts⟩ := idOf_inj _ _ _ _ heq
    obtain ⟨r, hrR, hrn⟩ := hgood'.comp a ha
    rcases hsep hcomp r hrR hrn with h | h | h
    · have := hc r hrR
      omega
    · have := hc r hrR
      omega
    · have := hc r hrR
      omega
  constructor
  · rw [hres]
    exact List.pairwise_map.mpr hne
  · have hactive := hact hc (by rfl)
    rw [hres, hactive]
    simp

/-- An `agent_down`-style rule with `cooldown = 0`, loadable through
`load_config` (`rule_data.get('cooldown', 300)` accepts 0). -/
def cdRule0 : AlertRule :=
  { name := "agent_down"
    condition := "active_agents < threshold"
    threshold := 3
    duration := 30
    level := AlertLevel.critical
    channels := [AlertChannel.email]
    cooldown := 0
    enabled := true }

/-- C4 counterexample.  With a zero-cooldown rule, two evaluation cycles
falling in the same clock second (`int(time.time())` has one-second
resolution) both fire and produce the *same* id `agent_down_1000`; the
second `active_alerts[alert_id] = alert` silently replaces the first, so
the active map holds one entry while two alerts were generated. -/
theorem alert_ids_unique_counterexample :
    ¬ ((((runCycles (mkState [cdRule0] []) [(1000, emptyMetrics), (1000, emptyMetrics)]).2.map
          (fun a => a.alert_id)).Nodup) ∧
       (runCycles (mkState [cdRule0] []) [(1000, emptyMetrics), (1000, emptyMetrics)]).1.active_alerts.length
         = (runCycles (mkState [cdRule0] []) [(1000, emptyMetrics), (1000, emptyMetrics)]).2.length) := by
  decide

/-- Witness for `alert_ids_unique` on the default configuration (all six
default rules keep the default 300-second cooldown) over one cycle. -/
theorem alert_ids_unique_witness :
    ((runCycles (mkState defaultRules defaultChannels) [(5, emptyMetrics)]).2.map
        (fun a => a.alert_id)).Nodup ∧
    (runCycles (mkState defaultRules defaultChannels) [(5, emptyMetrics)]).1.active_alerts.length
      = (runCycles (mkState defaultRules defaultChannels) [(5, emptyMetrics)]).2.length :=
  alert_ids_unique defaultRules defaultChannels [(5, emptyMetrics)] (by decide) (by decide)

/-! ### C1: strict cooldown enforcement -/

theorem mem_insertA {β : Type} (k : String) (v : β) :
    ∀ (l : List (String × β)) (p : String × β), p ∈ insertA k v l → p = (k, v) ∨ p ∈ l := by
  intro l
  induction l with
  | nil =>
    intro p hp
    rw [insertA] at hp
    rcases List.mem_singleton.mp hp with h
    exact Or.inl h
  | cons q rest ih =>
    intro p hp
    rw [insertA] at hp
    by_cases hq : q.1 = k
    · rw [if_pos hq] at hp
      rcases List.mem_cons.mp hp with h | h
      · exact Or.inl h
      · exact Or.inr (List.mem_cons_of_mem q h)
    · rw [if_neg hq] at hp
      rcases List.mem_cons.mp hp with h | h
      · exact Or.inr (h ▸ List.mem_cons_self q rest)
      · rcases ih p h with h2 | h2
        · exact Or.inl h2
        · exact Or.inr (List.mem_cons_of_mem q h2)

theorem insertA_mem_of_mem {β : Type} (k : String) (v : β) :
    ∀ (l : List (String × β)) (p : String × β), p ∈ l → p.1 ≠ k → p ∈ insertA k v l := by
  intro l
  induction l with
  | nil =>
    intro p hp
    cases hp
  | cons q rest ih =>
    intro p hp hne
    rw [insertA]
    by_cases hq : q.1 = k
    · rw [if_pos hq]
      rcases List.mem_cons.mp hp with h | h
      · exact absurd (h ▸ hq) hne
      · exact List.mem_cons_of_mem _ h
    · rw [if_neg hq]
      rcases List.mem_cons.mp hp with h | h
      · exact h ▸ List.mem_cons_self q _
      · exact List.mem_cons_of_mem q (ih p h hne)

/-- While every rule carrying name `n` is inside its cooldown window, the
evaluation loop leaves everything belonging to `n` untouched: the
cooldown-map entry keeps its value, no generated alert carries component
`n`, and the active entries with component `n` are exactly preserved
(assuming the reachable-state invariant that keys are canonical ids). -/
theorem coolSkip_fold (ce : CondEval) (now : Nat) (m : Metrics) (n : String) (l : Nat) :
    ∀ (rs : List AlertRule) (st : AMState) (trig : List Alert),
      lookupA n st.last_notification = some l →
      (∀ r ∈ rs, r.name = n → now - l < r.cooldown) →
      (∀ p ∈ st.active_alerts, p.1 = idOf p.2.component p.2.timestamp) →
      lookupA n (rs.foldl (evalRuleStep ce now m) (st, trig)).1.last_notification = some l ∧
      (∃ Δ, (rs.foldl (evalRuleStep ce now m) (st, trig)).2 = trig ++ Δ ∧
        ∀ a ∈ Δ, a.component ≠ n) ∧
      (∀ p ∈ (rs.foldl (evalRuleStep ce now m) (st, trig)).1.active_alerts,
        p.2.component = n → p ∈ st.active_alerts) ∧
      (∀ p ∈ st.active_alerts,
        p.2.component = n → p ∈ (rs.foldl (evalRuleStep ce now m) (st, trig)).1.active_alerts) ∧
      (∀ p ∈ (rs.foldl (evalRuleStep ce now m) (st, trig)).1.active_alerts,
        p.1 = idOf p.2.component p.2.timestamp) := by
  intro rs
  induction rs with
  | nil =>
    intro st trig hln hcool hwf
    exact ⟨hln, ⟨[], by simp, by intro a ha; cases ha⟩, fun p hp _ => hp, fun p hp _ => hp, hwf⟩
  | cons r rest ih =>
    intro st trig hln hcool hwf
    have hcool2 : ∀ r2 ∈ rest, r2.name = n → now - l < r2.cooldown :=
      fun r2 h2 => hcool r2 (List.mem_cons_of_mem r h2)
    rcases evalRuleStep_shape ce now m (st, trig) r with hstep | ⟨hfire, hstep⟩
    · rw [List.foldl_cons, hstep]
      exact ih st trig hln hcool2 hwf
    · by_cases hrn : r.name = n
      · exfalso
        rcases hfire with hnone | ⟨l2, hl2, hcd⟩
        · rw [hrn] at hnone
          rw [hln] at hnone
          cases hnone
        · rw [hrn] at hl2
          rw [hln] at hl2
          have : l = l2 := Option.some.inj hl2
          exact hcd (this ▸ hcool r (List.mem_cons_self r rest) hrn)
      · rw [List.foldl_cons, hstep]
        have hst' : (fireAlert now m r (st, trig).1 (st, trig).2).1.last_notification
            = insertA r.name now st.last_notification := rfl
        have hln' : lookupA n (fireAlert now m r (st, trig).1 (st, trig).2).1.last_notification
            = some l := by
          rw [hst', lookupA_insertA_other r.name n now st.last_notification
            (fun h => hrn h.symm)]
          exact hln
        have hact' : (fireAlert now m r (st, trig).1 (st, trig).2).1.active_alerts
            = insertA ((mkAlert now m r).alert_id) (mkAlert now m r) st.active_alerts := rfl
        have hwf' : ∀ p ∈ (fireAlert now m r (st, trig).1 (st, trig).2).1.active_alerts,
            p.1 = idOf p.2.component p.2.timestamp := by
          intro p hp
          rw [hact'] at hp
          rcases mem_insertA _ _ _ p hp with h | h
          · rw [h]
            rfl
          · exact hwf p h
        obtain ⟨hln2, ⟨Δ, hΔ, hΔn⟩, hsub1, hsub2, hwf2⟩ :=
          ih (fireAlert now m r (st, trig).1 (st, trig).2).1
            (fireAlert now m r (st, trig).1 (st, trig).2).2 hln' hcool2 hwf'
        have htrig : (fireAlert now m r (st, trig).1 (st, trig).2).2
            = trig ++ [mkAlert now m r] := rfl
        have hpair : fireAlert now m r (st, trig).1 (st, trig).2
            = ((fireAlert now m r (st, trig).1 (st, trig).2).1,
               (fireAlert now m r (st, trig).1 (st, trig).2).2) := rfl
        rw [hpair]
        refine ⟨hln2, ⟨[mkAlert now m r] ++ Δ, ?_, ?_⟩, ?_, ?_, hwf2⟩
        · rw [hΔ, htrig, List.append_assoc]
        · intro a ha
          rcases List.mem_append.mp ha with h | h
          · rw [List.mem_singleton.mp h]
            exact fun hh => hrn hh
          · exact hΔn a h
        · intro p hp hpn
          have hmem := hsub1 p hp hpn
          rw [hact'] at hmem
          rcases mem_insertA _ _ _ p hmem with h | h
          · exfalso
            apply hrn
            rw [h] at hpn
            exact hpn
          · exact h
        · intro p hp hpn
          apply hsub2 p _ hpn
          rw [hact']
          apply insertA_mem_of_mem _ _ _ p hp
          rw [hwf p hp]
          intro hkey
          obtain ⟨hc1, _⟩ := idOf_inj _ _ _ _ hkey
          exact hrn (hpn ▸ hc1).symm

/-- C1.  Cooldown is enforced strictly (rule names unique, as the spec's
data model declares).  Step part: if a rule's last notification is within
its cooldown window, one `evaluate_rules` call generates no alert for that
rule name, leaves its cooldown-map entry and its active entries exactly as
they were (keys being canonical ids in reachable states), and the history
untouched.  Run part: over any multi-cycle run from a fresh manager, no
two generated alerts for the same rule name lie strictly within that
rule's cooldown of each other. -/
theorem cooldown_strict (rules : List AlertRule)
    (channels : List (AlertChannel × NotificationChannel)) (cycles : List (Nat × Metrics))
    (hnd : (rules.map (fun r2 => r2.name)).Nodup) :
    (∀ (now : Nat) (m : Metrics) (st : AMState) (r : AlertRule) (l : Nat),
      st.rules = rules → r ∈ rules →
      (∀ p ∈ st.active_alerts, p.1 = idOf p.2.component p.2.timestamp) →
      lookupA r.name st.last_notification = some l →
      now - l < r.cooldown →
      (lookupA r.name (evaluate_rules now m st).1.last_notification = some l ∧
       (∀ a ∈ (evaluate_rules now m st).2, a.component ≠ r.name) ∧
       (∀ p ∈ (evaluate_rules now m st).1.active_alerts,
         p.2.component = r.name → p ∈ st.active_alerts) ∧
       (∀ p ∈ st.active_alerts,
         p.2.component = r.name → p ∈ (evaluate_rules now m st).1.active_alerts) ∧
       (evaluate_rules now m st).1.alert_history = st.alert_history)) ∧
    List.Pairwise
      (fun a b => a.component = b.component → ∀ r ∈ rules, r.name = a.component →
        ¬(a.timestamp < b.timestamp + r.cooldown ∧ b.timestamp < a.timestamp + r.cooldown))
      (runCycles (mkState rules channels) cycles).2 := by
  constructor
  · intro now m st r l hrules hr hwf hln hcd
    have hcool : ∀ r2 ∈ st.rules, r2.name = r.name → now - l < r2.cooldown := by
      intro r2 h2 hname
      have : r2 = r := by
        apply List.inj_on_of_nodup_map hnd
        · rw [← hrules] at *
          exact h2
        · exact hr
        · exact hname
      rw [this]
      exact hcd
    obtain ⟨h1, ⟨Δ, hΔ, hΔn⟩, h3, h4, _⟩ :=
      coolSkip_fold okEval now m r.name l st.rules st [] hln hcool hwf
    refine ⟨h1, ?_, h3, h4, (evalFold_fields okEval now m st.rules (st, [])).1⟩
    intro a ha
    have : a ∈ [] ++ Δ := by
      rw [← hΔ]
      exact ha
    exact hΔn a (by simpa using this)
  · obtain ⟨Δ, hres, hgood, _⟩ :=
      runCycles_good rules hnd cycles (mkState rules channels) [] rfl (goodGen_nil rules [])
    have hgood' : GoodGen rules
        (runCycles (mkState rules channels) cycles).1.last_notification Δ := by
      simpa using hgood
    rw [hres]
    refine List.Pairwise.imp ?_ hgood'.sep
    intro a b hsep hcomp r hr hname
    rcases hsep hcomp r hr hname with h | h | h
    · omega
    · omega
    · omega

/-- The `agent_down` default rule (300-second default cooldown). -/
def agentDownRule : AlertRule :=
  { name := "agent_down"
    condition := "active_agents < threshold"
    threshold := 3
    duration := 30
    level := AlertLevel.critical
    channels := [AlertChannel.email, AlertChannel.slack, AlertChannel.sns] }

/-- Witness for `cooldown_strict`: the step part instantiated on `c7State`
(last `agent_down` notification at second 5, evaluated again at second
100, well inside the 300-second cooldown), and the run part on a
one-cycle run of the default configuration. -/
theorem cooldown_strict_witness :
    (lookupA agentDownRule.name
        (evaluate_rules 100 emptyMetrics c7State).1.last_notification = some 5 ∧
     (∀ a ∈ (evaluate_rules 100 emptyMetrics c7State).2, a.component ≠ agentDownRule.name) ∧
     (∀ p ∈ (evaluate_rules 100 emptyMetrics c7State).1.active_alerts,
       p.2.component = agentDownRule.name → p ∈ c7State.active_alerts) ∧
     (∀ p ∈ c7State.active_alerts,
       p.2.component = agentDownRule.name →
         p ∈ (evaluate_rules 100 emptyMetrics c7State).1.active_alerts) ∧
     (evaluate_rules 100 emptyMetrics c7State).1.alert_history = c7State.alert_history) ∧
    List.Pairwise
      (fun a b => a.component = b.component → ∀ r ∈ defaultRules, r.name = a.component →
        ¬(a.timestamp < b.timestamp + r.cooldown ∧ b.timestamp < a.timestamp + r.cooldown))
      (runCycles (mkState defaultRules defaultChannels) [(5, emptyMetrics)]).2 :=
  ⟨(cooldown_strict defaultRules defaultChannels [(5, emptyMetrics)] (by decide)).1
      100 emptyMetrics c7State agentDownRule 5 rfl (by decide) (by decide) (by decide)
      (by decide),
   (cooldown_strict defaultRules defaultChannels [(5, emptyMetrics)] (by decide)).2⟩
